import Mathlib

/-!
Verification of the generic model engine of the knex-model repository:
the query compiler (src/model/index.ts), the derived validation schemas
(src/model/index.ts and src/model/key.ts), the transactional exactly-one
operations, and the error translator (src/index.ts).  External
collaborators (the knex query builder, the knex wrapper transaction
combinator and the joi validation library) are modelled through the
narrow interfaces the engine consumes.
-/

namespace KnexModel

/-- Scalar values stored in table columns and used in queries (the JS primitives the engine handles). -/
inductive Value
| vNull
| vBool (b : Bool)
| vInt (n : Int)
| vStr (s : String)
deriving DecidableEq, Repr

/-- Filter value in a query item: a scalar (none models the JS undefined sentinel) or an array of values. -/
inductive QueryValue
| scalar (v : Option Value)
| arr (vs : List Value)
deriving DecidableEq, Repr

/-- One query item: field name (possibly in its negated form) to filter value pairs, in supplied order. -/
abbrev QueryItem := List (String × QueryValue)

/-- The input query type of the engine (source type TQuery): one query item or an array of query items. -/
inductive TQuery
| single (item : QueryItem)
| list (items : List QueryItem)
deriving DecidableEq, Repr

/-- Atomic where-conditions reachable through the knex builder methods the engine uses. -/
inductive WherePred
| whereEq (field : String) (v : Value)
| whereNe (field : String) (v : Value)
| whereIn (field : String) (vs : List Value)
| whereNotIn (field : String) (vs : List Value)
deriving DecidableEq, Repr

/-- Boolean structure of an accumulated knex where-clause. -/
inductive WhereFilter
| atom (p : WherePred)
| conj (l r : WhereFilter)
| disj (l r : WhereFilter)
deriving DecidableEq, Repr

/-- Model of the knex query builder restricted to the where-clause structure the engine builds; a filter of none means no where clause has been added yet, and such a builder matches every row. -/
structure KnexQueryBuilder where
  filter : Option WhereFilter
deriving DecidableEq, Repr

instance {ε α : Type} [DecidableEq ε] [DecidableEq α] : DecidableEq (Except ε α) := fun a b =>
  match a, b with
  | Except.ok x, Except.ok y => decidable_of_iff (x = y) (by simp)
  | Except.error x, Except.error y => decidable_of_iff (x = y) (by simp)
  | Except.ok _, Except.error _ => Decidable.isFalse (by simp)
  | Except.error _, Except.ok _ => Decidable.isFalse (by simp)

/-- A fresh builder with no clauses. -/
def KnexQueryBuilder.empty : KnexQueryBuilder := ⟨none⟩

/-- Chaining one atomic condition onto the builder conjoins it, as the knex where, whereNot, whereIn and whereNotIn methods do. -/
def KnexQueryBuilder.andWhere (q : KnexQueryBuilder) (p : WherePred) : KnexQueryBuilder :=
  match q.filter with
  | none => ⟨some (WhereFilter.atom p)⟩
  | some f => ⟨some (WhereFilter.conj f (WhereFilter.atom p))⟩

/-- Model of knex orWhere with a grouped subclause; knex drops a group to which the callback added no conditions, and an or-clause on a builder without clauses becomes the first clause. -/
def KnexQueryBuilder.orWhereGrouped (q : KnexQueryBuilder) (sub : KnexQueryBuilder) : KnexQueryBuilder :=
  match sub.filter with
  | none => q
  | some g =>
    match q.filter with
    | none => ⟨some g⟩
    | some f => ⟨some (WhereFilter.disj f g)⟩

/-- Evaluation of an atomic condition against a row, viewed as a total valuation of column names. -/
def WherePred.eval (p : WherePred) (row : String → Value) : Bool :=
  match p with
  | whereEq field v => row field == v
  | whereNe field v => !(row field == v)
  | whereIn field vs => vs.contains (row field)
  | whereNotIn field vs => !(vs.contains (row field))

/-- Evaluation of a where-clause structure against a row. -/
def WhereFilter.eval (f : WhereFilter) (row : String → Value) : Bool :=
  match f with
  | atom p => p.eval row
  | conj l r => l.eval row && r.eval row
  | disj l r => l.eval row || r.eval row

/-- Whether a row satisfies the builder's accumulated filter; a builder without clauses matches every row. -/
def KnexQueryBuilder.matchesRow (q : KnexQueryBuilder) (row : String → Value) : Bool :=
  match q.filter with
  | none => true
  | some f => f.eval row

/-- Negation marker test of the compiler: the source checks that the character at index zero of the key is the exclamation mark. -/
def isNegKey (key : String) : Bool :=
  match key.data with
  | [] => false
  | c :: _ => c == Char.ofNat 33

/-- Key with the negation marker stripped (the source substr from index one). -/
def stripNeg (key : String) : String := String.mk (key.data.drop 1)

/-- Embedding of Model.prepareQueryItemParamters: folds the item's key and value pairs onto the builder in supplied order, raising the two programmer errors the source throws synchronously; an array value with a negated key adds NOT IN over the stripped key, a plain key adds IN, a defined scalar adds not-equal or equal likewise. -/
def prepareQueryItemParamters (knexQuery : KnexQueryBuilder) (queryItem : QueryItem) : Except String KnexQueryBuilder :=
  match queryItem with
  | [] => Except.ok knexQuery
  | (key, value) :: rest =>
    match value with
    | QueryValue.arr vs =>
      if vs.length = 0 then Except.error "An empty array has been passed."
      else if isNegKey key then
        prepareQueryItemParamters (knexQuery.andWhere (WherePred.whereNotIn (stripNeg key) vs)) rest
      else
        prepareQueryItemParamters (knexQuery.andWhere (WherePred.whereIn key vs)) rest
    | QueryValue.scalar none => Except.error "An undefined value has been passed."
    | QueryValue.scalar (some v) =>
      if isNegKey key then
        prepareQueryItemParamters (knexQuery.andWhere (WherePred.whereNe (stripNeg key) v)) rest
      else
        prepareQueryItemParamters (knexQuery.andWhere (WherePred.whereEq key v)) rest

/-- Helper for the array case of Model.prepareQueryParameters: each item is compiled inside an orWhere group over a fresh subquery (knex builders mutate in place, so the value the source callback discards is the builder the group reads). -/
def prepareQueryListParameters (knexQuery : KnexQueryBuilder) (items : List QueryItem) : Except String KnexQueryBuilder :=
  match items with
  | [] => Except.ok knexQuery
  | item :: rest =>
    match prepareQueryItemParamters KnexQueryBuilder.empty item with
    | Except.error e => Except.error e
    | Except.ok sub => prepareQueryListParameters (knexQuery.orWhereGrouped sub) rest

/-- Embedding of Model.prepareQueryParameters: an array query ORs in one grouped subquery per item; a single item is chained directly onto the base builder of the table. -/
def prepareQueryParameters (query : TQuery) : Except String KnexQueryBuilder :=
  match query with
  | TQuery.list items => prepareQueryListParameters KnexQueryBuilder.empty items
  | TQuery.single item => prepareQueryItemParamters KnexQueryBuilder.empty item

/-- Per-pair predicate in the words of the specification: an array value with a negated key means the field value is not in the array (key stripped of the marker), a plain key means membership, a defined scalar means inequality or equality of the field value; the undefined scalar, which the compiler rejects, is arbitrarily read as never matching. -/
def specPairPred (row : String → Value) (pair : String × QueryValue) : Bool :=
  match pair.2 with
  | QueryValue.arr vs =>
    if isNegKey pair.1 then !(vs.contains (row (stripNeg pair.1)))
    else vs.contains (row pair.1)
  | QueryValue.scalar none => false
  | QueryValue.scalar (some v) =>
    if isNegKey pair.1 then !(row (stripNeg pair.1) == v)
    else row pair.1 == v

/-- Conjunction over the pairs of one query item, in the words of the specification; an item with no keys yields true. -/
def specItemPred (row : String → Value) (item : QueryItem) : Bool :=
  item.all (fun pair => specPairPred row pair)

/-- Disjunction over the items of a list query, in the words of the specification (the claimed DNF shape). -/
def specQueryPred (row : String → Value) (items : List QueryItem) : Bool :=
  items.any (fun item => specItemPred row item)

theorem andWhere_matchesRow (q : KnexQueryBuilder) (p : WherePred) (row : String → Value) :
    (q.andWhere p).matchesRow row = (q.matchesRow row && p.eval row) := by
  obtain ⟨f⟩ := q
  cases f <;> simp [KnexQueryBuilder.andWhere, KnexQueryBuilder.matchesRow, WhereFilter.eval]

theorem prepareQueryItemParamters_matchesRow (item : QueryItem) :
    ∀ (q qb : KnexQueryBuilder) (row : String → Value),
    prepareQueryItemParamters q item = Except.ok qb →
    qb.matchesRow row = (q.matchesRow row && specItemPred row item) := by
  induction item with
  | nil =>
    intro q qb row h
    simp [prepareQueryItemParamters] at h
    subst h
    simp [specItemPred]
  | cons pair rest ih =>
    intro q qb row h
    obtain ⟨key, value⟩ := pair
    cases value with
    | arr vs =>
      by_cases hvs : vs.length = 0
      · simp [prepareQueryItemParamters, hvs] at h
      · by_cases hneg : isNegKey key = true
        · simp [prepareQueryItemParamters, hvs, hneg] at h
          have := ih _ _ row h
          simp [this, andWhere_matchesRow, specItemPred, specPairPred, hneg,
            WherePred.eval, Bool.and_assoc, Bool.and_comm, Bool.and_left_comm]
        · simp [prepareQueryItemParamters, hvs, hneg] at h
          have := ih _ _ row h
          simp [this, andWhere_matchesRow, specItemPred, specPairPred, hneg,
            WherePred.eval, Bool.and_assoc, Bool.and_comm, Bool.and_left_comm]
    | scalar ov =>
      cases ov with
      | none => simp [prepareQueryItemParamters] at h
      | some v =>
        by_cases hneg : isNegKey key = true
        · simp [prepareQueryItemParamters, hneg] at h
          have := ih _ _ row h
          simp [this, andWhere_matchesRow, specItemPred, specPairPred, hneg,
            WherePred.eval, Bool.and_assoc, Bool.and_comm, Bool.and_left_comm]
        · simp [prepareQueryItemParamters, hneg] at h
          have := ih _ _ row h
          simp [this, andWhere_matchesRow, specItemPred, specPairPred, hneg,
            WherePred.eval, Bool.and_assoc, Bool.and_comm, Bool.and_left_comm]

theorem prepareQueryItemParamters_filter_ne_none (item : QueryItem) :
    ∀ (q qb : KnexQueryBuilder),
    prepareQueryItemParamters q item = Except.ok qb →
    q.filter ≠ none → qb.filter ≠ none := by
  induction item with
  | nil =>
    intro q qb h hq
    simp [prepareQueryItemParamters] at h
    subst h
    exact hq
  | cons pair rest ih =>
    intro q qb h hq
    obtain ⟨key, value⟩ := pair
    have hstep : ∀ p : WherePred, (q.andWhere p).filter ≠ none := by
      intro p
      obtain ⟨f⟩ := q
      cases f <;> simp [KnexQueryBuilder.andWhere]
    cases value with
    | arr vs =>
      by_cases hvs : vs.length = 0
      · simp [prepareQueryItemParamters, hvs] at h
      · by_cases hneg : isNegKey key = true
        · simp [prepareQueryItemParamters, hvs, hneg] at h
          exact ih _ _ h (hstep _)
        · simp [prepareQueryItemParamters, hvs, hneg] at h
          exact ih _ _ h (hstep _)
    | scalar ov =>
      cases ov with
      | none => simp [prepareQueryItemParamters] at h
      | some v =>
        by_cases hneg : isNegKey key = true
        · simp [prepareQueryItemParamters, hneg] at h
          exact ih _ _ h (hstep _)
        · simp [prepareQueryItemParamters, hneg] at h
          exact ih _ _ h (hstep _)

theorem prepareQueryItemParamters_cons_ne_none (pair : String × QueryValue) (rest : QueryItem)
    (qb : KnexQueryBuilder)
    (h : prepareQueryItemParamters KnexQueryBuilder.empty (pair :: rest) = Except.ok qb) :
    qb.filter ≠ none := by
  obtain ⟨key, value⟩ := pair
  have hone : ∀ p : WherePred, (KnexQueryBuilder.empty.andWhere p).filter ≠ none := by
    intro p
    simp [KnexQueryBuilder.empty, KnexQueryBuilder.andWhere]
  cases value with
  | arr vs =>
    by_cases hvs : vs.length = 0
    · simp [prepareQueryItemParamters, hvs] at h
    · by_cases hneg : isNegKey key = true
      · simp [prepareQueryItemParamters, hvs, hneg] at h
        exact prepareQueryItemParamters_filter_ne_none rest _ _ h (hone _)
      · simp [prepareQueryItemParamters, hvs, hneg] at h
        exact prepareQueryItemParamters_filter_ne_none rest _ _ h (hone _)
  | scalar ov =>
    cases ov with
    | none => simp [prepareQueryItemParamters] at h
    | some v =>
      by_cases hneg : isNegKey key = true
      · simp [prepareQueryItemParamters, hneg] at h
        exact prepareQueryItemParamters_filter_ne_none rest _ _ h (hone _)
      · simp [prepareQueryItemParamters, hneg] at h
        exact prepareQueryItemParamters_filter_ne_none rest _ _ h (hone _)

theorem prepareQueryListParameters_matchesRow (items : List QueryItem) :
    ∀ (q qb : KnexQueryBuilder) (row : String → Value),
    prepareQueryListParameters q items = Except.ok qb →
    qb.matchesRow row =
      (match q.filter with
       | none => (items.all (fun it => it.isEmpty)
           || items.any (fun it => !it.isEmpty && specItemPred row it))
       | some f => (f.eval row
           || items.any (fun it => !it.isEmpty && specItemPred row it))) := by
  induction items with
  | nil =>
    intro q qb row h
    simp [prepareQueryListParameters] at h
    subst h
    obtain ⟨f⟩ := q
    cases f <;> simp [KnexQueryBuilder.matchesRow]
  | cons item rest ih =>
    intro q qb row h
    simp only [prepareQueryListParameters] at h
    cases hsub : prepareQueryItemParamters KnexQueryBuilder.empty item with
    | error e => rw [hsub] at h; exact absurd h (by simp)
    | ok sub =>
      rw [hsub] at h
      simp only at h
      cases item with
      | nil =>
        have hsubempty : sub = KnexQueryBuilder.empty := by
          simpa [prepareQueryItemParamters] using hsub.symm
        rw [hsubempty] at h
        have hgroup : q.orWhereGrouped KnexQueryBuilder.empty = q := by
          simp [KnexQueryBuilder.orWhereGrouped, KnexQueryBuilder.empty]
        rw [hgroup] at h
        have := ih _ _ row h
        obtain ⟨f⟩ := q
        cases f <;> simp_all [List.isEmpty]
      | cons pair tail =>
        have hne : sub.filter ≠ none :=
          prepareQueryItemParamters_cons_ne_none pair tail sub hsub
        cases hsf : sub.filter with
        | none => exact absurd hsf hne
        | some g =>
          have hgeval : g.eval row = specItemPred row (pair :: tail) := by
            have := prepareQueryItemParamters_matchesRow (pair :: tail) _ _ row hsub
            simp [KnexQueryBuilder.empty, KnexQueryBuilder.matchesRow, hsf] at this
            exact this
          obtain ⟨qf⟩ := q
          cases qf with
          | none =>
            have hgroup : KnexQueryBuilder.orWhereGrouped ⟨none⟩ sub = ⟨some g⟩ := by
              simp [KnexQueryBuilder.orWhereGrouped, hsf]
            rw [hgroup] at h
            have := ih _ _ row h
            simp at this
            rw [this, hgeval]
            simp [List.isEmpty]
          | some f =>
            have hgroup : KnexQueryBuilder.orWhereGrouped ⟨some f⟩ sub
                = ⟨some (WhereFilter.disj f g)⟩ := by
              simp [KnexQueryBuilder.orWhereGrouped, hsf]
            rw [hgroup] at h
            have := ih _ _ row h
            simp at this
            rw [this]
            simp [WhereFilter.eval, hgeval, List.isEmpty, Bool.or_assoc]

/-- C1 (amended): for a query that is a list of query items, the compiled filter matches a row exactly when every item of the list is empty (knex drops groups without conditions, so no where clause is added; in particular the empty list compiles to the match-all filter) or when some item with at least one key satisfies the conjunction of its per-field predicates, where an array value with a negated key compiles to NOT IN over the key stripped of its marker, an array with a plain key to IN, a defined scalar with a negated key to not-equal and with a plain key to equal; a query that is a single query item compiles to the plain conjunction of its per-field predicates, so a single item with no keys matches all rows. -/
theorem C1_query_compiler_semantics :
    (∀ (items : List QueryItem) (qb : KnexQueryBuilder) (row : String → Value),
      prepareQueryParameters (TQuery.list items) = Except.ok qb →
      qb.matchesRow row =
        (items.all (fun it => it.isEmpty)
          || items.any (fun it => !it.isEmpty && specItemPred row it)))
  ∧ (∀ (item : QueryItem) (qb : KnexQueryBuilder) (row : String → Value),
      prepareQueryParameters (TQuery.single item) = Except.ok qb →
      qb.matchesRow row = specItemPred row item)
  ∧ (∀ (row : String → Value), specItemPred row [] = true) := by
  refine ⟨?_, ?_, ?_⟩
  · intro items qb row h
    have := prepareQueryListParameters_matchesRow items KnexQueryBuilder.empty qb row h
    simpa [KnexQueryBuilder.empty] using this
  · intro item qb row h
    have := prepareQueryItemParamters_matchesRow item KnexQueryBuilder.empty qb row h
    simpa [KnexQueryBuilder.empty, KnexQueryBuilder.matchesRow] using this
  · intro row
    simp [specItemPred]

/-- C1 counterexample: the empty list of query items compiles to a builder with no where clause, which matches every row, while the disjunction over the (zero) items of the claimed DNF matches no row. -/
theorem C1_counterexample_empty_query_list :
    prepareQueryParameters (TQuery.list []) = Except.ok KnexQueryBuilder.empty
  ∧ KnexQueryBuilder.empty.matchesRow (fun _ => Value.vNull) = true
  ∧ specQueryPred (fun _ => Value.vNull) [] = false :=
  ⟨rfl, rfl, rfl⟩

/-- Witness for C1 at a concrete compiled query and row. -/
theorem C1_witness :
    KnexQueryBuilder.matchesRow
        ⟨some (WhereFilter.atom (WherePred.whereEq "a" (Value.vInt 1)))⟩
        (fun _ => Value.vInt 1)
      = ([[("a", QueryValue.scalar (some (Value.vInt 1)))]].all (fun it => it.isEmpty)
          || [[("a", QueryValue.scalar (some (Value.vInt 1)))]].any
               (fun it => !it.isEmpty && specItemPred (fun _ => Value.vInt 1) it)) :=
  C1_query_compiler_semantics.1
    [[("a", QueryValue.scalar (some (Value.vInt 1)))]]
    ⟨some (WhereFilter.atom (WherePred.whereEq "a" (Value.vInt 1)))⟩
    (fun _ => Value.vInt 1) (by decide)

/-- Base per-field validator, as consumed through the narrow validation interface: a pure check of one value against the field's declared value shape. -/
abbrev FieldSchema := Value → Bool

/-- Kinds of violations the modelled joi validation reports. -/
inductive ViolationKind
| unknownKey
| missingRequired
| badValue
| xorConflict
| xorMissing
deriving DecidableEq, Repr

/-- One reported validation violation: the offending key path and the kind of failure. -/
structure Violation where
  path : String
  kind : ViolationKind
deriving DecidableEq, Repr

/-- The joi presence option as the engine sets it. -/
inductive Presence
| required
| optional
deriving DecidableEq, Repr

/-- Model of a joi object schema as the engine constructs them: a key map of base field validators, the presence mode and the abort-early and convert options, plus xor peer constraints. -/
structure JoiObject where
  keys : List (String × FieldSchema)
  presence : Presence
  abortEarly : Bool
  convert : Bool
  xors : List (String × String)

/-- Joi object validation as consumed by the engine: unknown keys are rejected, required keys must be present, present values must pass their field check and xor peers must be set exactly once; violations are collected across all keys and the abort-early option keeps only the first when set; with conversion disabled the value is validated as given, never transformed. -/
def JoiObject.validate (s : JoiObject) (v : List (String × Value)) : List Violation :=
  let unknown := (v.filter (fun p => !(s.keys.any (fun k => k.1 == p.1)))).map
    (fun p => Violation.mk p.1 ViolationKind.unknownKey)
  let missing :=
    match s.presence with
    | Presence.required =>
      (s.keys.filter (fun k => !(v.any (fun p => p.1 == k.1)))).map
        (fun k => Violation.mk k.1 ViolationKind.missingRequired)
    | Presence.optional => []
  let bad := v.filterMap (fun p =>
    match s.keys.find? (fun k => k.1 == p.1) with
    | none => none
    | some k => if k.2 p.2 then none else some (Violation.mk p.1 ViolationKind.badValue))
  let xorViol := s.xors.filterMap (fun x =>
    let hasA := v.any (fun p => p.1 == x.1)
    let hasB := v.any (fun p => p.1 == x.2)
    if hasA && hasB then some (Violation.mk x.1 ViolationKind.xorConflict)
    else if !hasA && !hasB then some (Violation.mk x.1 ViolationKind.xorMissing)
    else none)
  let all := unknown ++ missing ++ bad ++ xorViol
  if s.abortEarly then all.take 1 else all

/-- Embedding of the create-values schema the KeyModel constructor derives: a joi object over the non-key fields with presence required, abort-early disabled and conversion disabled, and no xor constraints. -/
def keyModelCreateValuesValidationSchema (fields : List (String × FieldSchema)) : JoiObject :=
  JoiObject.mk (fields.filter (fun p => !(p.1 == "key"))) Presence.required false false []

/-- Embedding of the update-values schema the KeyModel constructor derives: the same non-key field set with presence optional, abort-early disabled and conversion disabled. -/
def keyModelUpdateValuesValidationSchema (fields : List (String × FieldSchema)) : JoiObject :=
  JoiObject.mk (fields.filter (fun p => !(p.1 == "key"))) Presence.optional false false []

/-- Model of the joi schema for one query item, as the Model constructor derives it: a key map pairing every field name and its negated form with the field validator (each accepting a value or an array of values) and the xor peer constraints attached to the schema. -/
structure QueryItemSchema where
  keyMap : List (String × FieldSchema)
  xors : List (String × String)

/-- Model of the joi xor method: joi schemas are immutable, so the method returns a new schema carrying the added peer constraint and leaves the receiver unchanged. -/
def QueryItemSchema.xorPeers (s : QueryItemSchema) (a b : String) : QueryItemSchema :=
  QueryItemSchema.mk s.keyMap (s.xors ++ [(a, b)])

/-- Embedding of the query-item schema derivation in the Model constructor: builds the key map over every field and its negated form; the source then calls xor on the schema once per field but discards the returned schema (joi schemas are immutable), so the schema actually kept carries no xor constraint; the keys are then marked optional and abort-early and conversion are disabled on the enclosing alternatives schema. -/
def mkQueryItemValidationSchema (fields : List (String × FieldSchema)) : QueryItemSchema :=
  let keyMap := fields.foldr
    (fun p acc => (p.1, p.2) :: ("!" ++ p.1, p.2) :: acc) []
  let base := QueryItemSchema.mk keyMap []
  let _discarded := fields.map (fun p => base.xorPeers p.1 ("!" ++ p.1))
  base

/-- Whether a key counts as present in a query item for joi purposes: set and not the undefined sentinel (joi treats a key set to undefined as absent). -/
def itemHasKey (item : QueryItem) (key : String) : Bool :=
  item.any (fun p => p.1 == key && !(p.2 == QueryValue.scalar none))

/-- Joi validation of one query item against the derived query-item schema: every present key must be in the key map and its value must satisfy the field validator directly or element-wise as an array (the two alternatives); all keys are optional; each xor peer pair rejects an item that sets both or neither peer. -/
def QueryItemSchema.validateItem (s : QueryItemSchema) (item : QueryItem) : List Violation :=
  let unknown := (item.filter (fun p => !(s.keyMap.any (fun k => k.1 == p.1)))).map
    (fun p => Violation.mk p.1 ViolationKind.unknownKey)
  let bad := item.filterMap (fun p =>
    match s.keyMap.find? (fun k => k.1 == p.1) with
    | none => none
    | some k =>
      match p.2 with
      | QueryValue.scalar none => none
      | QueryValue.scalar (some v) =>
        if k.2 v then none else some (Violation.mk p.1 ViolationKind.badValue)
      | QueryValue.arr vs =>
        if vs.all k.2 then none else some (Violation.mk p.1 ViolationKind.badValue))
  let xorViol := s.xors.filterMap (fun x =>
    if itemHasKey item x.1 && itemHasKey item x.2 then
      some (Violation.mk x.1 ViolationKind.xorConflict)
    else if !(itemHasKey item x.1) && !(itemHasKey item x.2) then
      some (Violation.mk x.1 ViolationKind.xorMissing)
    else none)
  unknown ++ bad ++ xorViol

/-- Joi validation of the whole query against the derived alternatives schema: a single item is checked against the item schema and an array is checked item-wise through the array alternative, with abort-early disabled so violations are collected across items. -/
def validateQuery (fields : List (String × FieldSchema)) (q : TQuery) : List Violation :=
  let s := mkQueryItemValidationSchema fields
  match q with
  | TQuery.single item => s.validateItem item
  | TQuery.list items => (items.map (fun item => s.validateItem item)).flatten

/-- Structured backend error as knex surfaces it: the machine-readable code, the documented detail text, the constraint name and the table name. -/
structure KnexError where
  code : String
  detail : String
  constraint : String
  table : String
deriving DecidableEq, Repr

/-- The double-quote character used when quoting field names in messages. -/
def dquote : Char := Char.ofNat 34

/-- The single-quote character used when quoting values in messages. -/
def squote : Char := Char.ofNat 39

/-- The newline character, which the any-character class of the JS regex does not match. -/
def lfChar : Char := Char.ofNat 10

/-- Splits a character list at the last occurrence of the three-character group separator of the detail pattern; the first regex group is greedy, so it takes the longest prefix that leaves a match. -/
def splitAtLastSep : List Char → Option (List Char × List Char)
| [] => none
| c :: cs =>
  match splitAtLastSep cs with
  | some (a, b) => some (c :: a, b)
  | none =>
    match c, cs with
    | ')', '=' :: '(' :: rest => some ([], rest)
    | _, _ => none

/-- Splits a character list on every occurrence of a comma followed by a space, scanning left to right as the JS string split with that separator does. -/
def splitCommaSpace : List Char → List (List Char)
| [] => [[]]
| [c] => [[c]]
| c :: d :: rest =>
  if c = ',' ∧ d = ' ' then [] :: splitCommaSpace rest
  else
    match splitCommaSpace (d :: rest) with
    | [] => [[c]]
    | t :: ts => (c :: t) :: ts

/-- Joins character lists with a comma and a space between consecutive entries, as the JS array join with that separator does. -/
def joinCommaSpace : List (List Char) → List Char
| [] => []
| [f] => f
| f :: g :: rest => f ++ ',' :: ' ' :: joinCommaSpace (g :: rest)

/-- The fixed prefix of the detail pattern. -/
def detailKeyParen : List Char := ("Key (").data

/-- The fixed closing text of the detail pattern before its final any-character position. -/
def detailSuffix : List Char := (") already exists").data

/-- Final-character check of the detail pattern: exactly one character remains and it is not a newline. -/
def detailLastCharOk (tail : List Char) : Bool :=
  match tail with
  | [c] => !(c == lfChar)
  | _ => false

/-- Model of the JS regex match on the detail text: the anchored pattern requires the fixed prefix, two greedy any-character groups separated by the group separator (any-character groups cannot span newlines), the fixed closing text and one final non-newline character; none models a null match result. -/
def matchDetail (s : List Char) : Option (List Char × List Char) :=
  if detailKeyParen.isPrefixOf s then
    let rest := s.drop detailKeyParen.length
    let midLen := rest.length - (detailSuffix.length + 1)
    let mid := rest.take midLen
    let tail := rest.drop midLen
    if (decide (detailSuffix.length + 1 ≤ rest.length)
        && (tail.take detailSuffix.length == detailSuffix)
        && detailLastCharOk (tail.drop detailSuffix.length)
        && mid.all (fun c => !(c == lfChar))) = true
    then splitAtLastSep mid
    else none
  else none

/-- One per-field entry of the entity-exists error detail object. -/
structure EntityExistsDetailEntry where
  input : List Char
  vtype : String
  message : List Char
deriving DecidableEq, Repr

/-- Embedding of the EntityExistsError class state: the backend constraint name, the joined quoted field list, the joined quoted value list and the per-field detail entries, keyed in field order (field lists parsed from real backend details carry no duplicates, so the keyed JS object is this association list). -/
structure EntityExistsError where
  constraint : String
  fields : List Char
  values : List Char
  detail : List (List Char × EntityExistsDetailEntry)
deriving DecidableEq, Repr

/-- Message built for every offending field, referencing the table name, the joined quoted values and the joined quoted fields (the source pluralises on the length of the joined field string). -/
def entityExistsMessage (table : String) (valuesJoined fieldsJoined : List Char) : List Char :=
  ("A ").data ++ (dquote :: table.data) ++ [dquote]
    ++ (" entity already exists with the same value ").data ++ valuesJoined
    ++ (" in the ").data ++ fieldsJoined ++ (" field").data
    ++ (if 1 < fieldsJoined.length then [Char.ofNat 115] else [])

/-- Quoting of one offending field name in messages: the table name, a dot and the field, in double quotes. -/
def quoteField (table : String) (f : List Char) : List Char :=
  dquote :: table.data ++ '.' :: f ++ [dquote]

/-- Quoting of one conflicting value in messages: the value in single quotes. -/
def quoteValue (v : List Char) : List Char :=
  squote :: v ++ [squote]

/-- Embedding of the EntityExistsError constructor: matches the detail text against the documented pattern, splits the field and value groups on comma-space, derives the joined quoted field and value strings and builds one detail entry per offending field; when the pattern does not match, the JS match is null and the constructor fails reading its first group, surfacing a raw TypeError instead of a domain error. -/
def EntityExistsError.build (e : KnexError) : Except String EntityExistsError :=
  match matchDetail e.detail.data with
  | none => Except.error "TypeError: cannot read property of null"
  | some (g1, g2) =>
    let fields := splitCommaSpace g1
    let fieldsJoined := joinCommaSpace (fields.map (quoteField e.table))
    let valuesJoined := joinCommaSpace ((splitCommaSpace g2).map quoteValue)
    let msg := entityExistsMessage e.table valuesJoined fieldsJoined
    Except.ok (EntityExistsError.mk e.constraint fieldsJoined valuesJoined
      (fields.map (fun f =>
        (f, EntityExistsDetailEntry.mk valuesJoined "any.db_unique_constraint" msg))))

/-- Errors an engine operation can surface to its caller. -/
inductive Err
| validation (vs : List Violation)
| programmer (msg : String)
| entityNotFound
| multipleEntitiesFound
| entityExists (e : EntityExistsError)
| runtime (msg : String)
| backendErr (e : KnexError)
deriving DecidableEq, Repr

/-- Embedding of the catch block of Model.create: a backend error carrying the uniqueness-violation code is wrapped in an entity-exists error (or surfaces the raw constructor failure when the detail does not match the pattern); every other error is rethrown unchanged. -/
def createHandleError (e : KnexError) : Err :=
  if e.code = "23505" then
    match EntityExistsError.build e with
    | Except.ok x => Err.entityExists x
    | Except.error m => Err.runtime m
  else Err.backendErr e

/-- Backend statements an operation sends, recorded as the operation's I/O trace. -/
inductive Stmt
| txBegin
| txCommit
| txRollback
| insertStmt
| selectStmt
| updateStmt
| deleteStmt
| countStmt
deriving DecidableEq, Repr

/-- The table state: the list of stored rows, each an association list from column name to value. -/
abbrev DB := List (List (String × Value))

/-- Result of one engine operation: the outcome, the table state after the call and the trace of backend statements sent. -/
abbrev OpResult (α : Type) := Except Err α × DB × List Stmt

/-- Reads a column of a row given as data; a missing column reads as null. -/
def rowGet (r : List (String × Value)) (field : String) : Value :=
  match r.find? (fun p => p.1 == field) with
  | some p => p.2
  | none => Value.vNull

/-- Views row data as a total valuation of column names. -/
def rowFun (r : List (String × Value)) : String → Value := fun field => rowGet r field

/-- Projection of a stored row to the returned document over the given column names (the returning clause of the statements). -/
def projectRow (names : List String) (r : List (String × Value)) : List (String × Value) :=
  names.map (fun f => (f, rowGet r f))

/-- Effect of an SQL update on one row: every column named in the values is set to the supplied value, other columns are kept. -/
def mergeRow (values : List (String × Value)) (r : List (String × Value)) : List (String × Value) :=
  r.map (fun p =>
    match values.find? (fun q => q.1 == p.1) with
    | some q => (p.1, q.2)
    | none => p)

/-- Model of the external knex wrapper's transaction combinator as the spec describes it: with no caller-supplied transaction it begins one, commits on success and rolls the table state back on error; a caller-supplied transaction is joined, so begin, commit and rollback belong to the caller. -/
def KnexWrapper.transaction {α : Type} (body : DB → OpResult α) (callerTransaction : Option Unit)
    (s : DB) : OpResult α :=
  match callerTransaction with
  | some _ => body s
  | none =>
    match body s with
    | (Except.ok a, s2, tr) => (Except.ok a, s2, Stmt.txBegin :: tr ++ [Stmt.txCommit])
    | (Except.error e, _, tr) => (Except.error e, s, Stmt.txBegin :: tr ++ [Stmt.txRollback])

/-- Options of create and createOne. -/
structure CreateOptions where
  isValidationDisabled : Bool
  transaction : Option Unit

/-- Options of find and findOne; the order-by clause only permutes result rows and is outside the scope of the verified claims, so it is not modelled. -/
structure FindOptions where
  isValidationDisabled : Bool
  limit : Option Nat
  offset : Option Nat
  transaction : Option Unit

/-- Options of count. -/
structure CountOptions where
  isValidationDisabled : Bool
  transaction : Option Unit

/-- Options of update and updateOne, with independently disableable query and values validation. -/
structure UpdateOptions where
  isQueryValidationDisabled : Bool
  isValuesValidationDisabled : Bool
  transaction : Option Unit

/-- Options of destroy and destroyOne. -/
structure DestroyOptions where
  isValidationDisabled : Bool
  transaction : Option Unit

/-- The model engine state: table name, field schema set and the two value schemas the concrete subtype supplies to the constructor (the query schema is derived from the fields). -/
structure ModelDef where
  table : String
  fields : List (String × FieldSchema)
  createValuesValidationSchema : JoiObject
  updateValuesValidationSchema : JoiObject

/-- Embedding of Model.fieldNames: the keys of the fields object. -/
def ModelDef.fieldNames (m : ModelDef) : List String := m.fields.map Prod.fst

/-- First validation failure over a list of submitted values (the source forEach throws at the first failing entry). -/
def firstValidationError (schema : JoiObject) : List (List (String × Value)) → Option (List Violation)
| [] => none
| v :: rest =>
  match schema.validate v with
  | [] => firstValidationError schema rest
  | x :: xs => some (x :: xs)

/-- Embedding of Model.create: optional validation of every values entry, then the insert with a returning clause over the field names; a fault raised by the awaited insert is routed through the catch block; on success the inserted rows are appended to the table and returned as documents. -/
def ModelDef.create (m : ModelDef) (values : List (List (String × Value)))
    (options : CreateOptions) (fault : Option KnexError) (s : DB) :
    OpResult (List (List (String × Value))) :=
  match (if options.isValidationDisabled then none
         else firstValidationError m.createValuesValidationSchema values) with
  | some vs => (Except.error (Err.validation vs), s, [])
  | none =>
    match fault with
    | some e => (Except.error (createHandleError e), s, [Stmt.insertStmt])
    | none => (Except.ok (values.map (projectRow m.fieldNames)), s ++ values, [Stmt.insertStmt])

/-- The exactly-one check every One-variant performs on the documents of its bulk operation: zero documents raise not-found, more than one raise multiple-found, otherwise the first document is returned. -/
def checkSingleDoc (docs : List (List (String × Value))) : Except Err (List (String × Value)) :=
  if docs.length = 0 then Except.error Err.entityNotFound
  else if 1 < docs.length then Except.error Err.multipleEntitiesFound
  else Except.ok (docs.headD [])

/-- Embedding of Model.createOne: runs create on the singleton list inside the wrapper transaction, passing a fresh options object that copies the caller options and overrides only the transaction field, then applies the exactly-one check. -/
def ModelDef.createOne (m : ModelDef) (values : List (String × Value)) (options : CreateOptions)
    (fault : Option KnexError) (s : DB) : OpResult (List (String × Value)) :=
  KnexWrapper.transaction (fun s1 =>
    match m.create [values] (CreateOptions.mk options.isValidationDisabled (some ())) fault s1 with
    | (Except.error e, s2, tr) => (Except.error e, s2, tr)
    | (Except.ok docs, s2, tr) =>
      match checkSingleDoc docs with
      | Except.error e => (Except.error e, s2, tr)
      | Except.ok d => (Except.ok d, s2, tr)) options.transaction s

/-- Limit clause application: the source guards the clause with the JS truthiness of the option, so a limit of zero is skipped. -/
def applyLimit (limit : Option Nat) (rows : List (List (String × Value))) :
    List (List (String × Value)) :=
  match limit with
  | some l => if l = 0 then rows else rows.take l
  | none => rows

/-- Offset clause application, with the same truthiness guard. -/
def applyOffset (offset : Option Nat) (rows : List (List (String × Value))) :
    List (List (String × Value)) :=
  match offset with
  | some o => if o = 0 then rows else rows.drop o
  | none => rows

/-- Embedding of Model.find: optional query validation, compilation of the filter (whose programmer errors are raised before any statement), then the select with offset and limit and the projection to the field names. -/
def ModelDef.find (m : ModelDef) (query : TQuery) (options : FindOptions)
    (fault : Option KnexError) (s : DB) : OpResult (List (List (String × Value))) :=
  match (if options.isValidationDisabled then [] else validateQuery m.fields query) with
  | v :: vs => (Except.error (Err.validation (v :: vs)), s, [])
  | [] =>
    match prepareQueryParameters query with
    | Except.error msg => (Except.error (Err.programmer msg), s, [])
    | Except.ok qb =>
      match fault with
      | some e => (Except.error (Err.backendErr e), s, [Stmt.selectStmt])
      | none =>
        let matched := s.filter (fun r => qb.matchesRow (rowFun r))
        (Except.ok ((applyLimit options.limit (applyOffset options.offset matched)).map
          (projectRow m.fieldNames)), s, [Stmt.selectStmt])

/-- Embedding of Model.findOne: runs find inside the wrapper transaction with a fresh options object overriding only the transaction field, then applies the exactly-one check. -/
def ModelDef.findOne (m : ModelDef) (query : TQuery) (options : FindOptions)
    (fault : Option KnexError) (s : DB) : OpResult (List (String × Value)) :=
  KnexWrapper.transaction (fun s1 =>
    match m.find query
        (FindOptions.mk options.isValidationDisabled options.limit options.offset (some ()))
        fault s1 with
    | (Except.error e, s2, tr) => (Except.error e, s2, tr)
    | (Except.ok docs, s2, tr) =>
      match checkSingleDoc docs with
      | Except.error e => (Except.error e, s2, tr)
      | Except.ok d => (Except.ok d, s2, tr)) options.transaction s

/-- Embedding of Model.count: optional query validation, compilation, then the count query whose aggregate result is the number of matching rows. -/
def ModelDef.count (m : ModelDef) (query : TQuery) (options : CountOptions)
    (fault : Option KnexError) (s : DB) : OpResult Nat :=
  match (if options.isValidationDisabled then [] else validateQuery m.fields query) with
  | v :: vs => (Except.error (Err.validation (v :: vs)), s, [])
  | [] =>
    match prepareQueryParameters query with
    | Except.error msg => (Except.error (Err.programmer msg), s, [])
    | Except.ok qb =>
      match fault with
      | some e => (Except.error (Err.backendErr e), s, [Stmt.countStmt])
      | none =>
        ((Except.ok (s.filter (fun r => qb.matchesRow (rowFun r))).length), s, [Stmt.countStmt])

/-- Embedding of Model.update: independently optional query and values validation, compilation, then the update statement that merges the values into every matching row and returns the updated rows projected to the field names. -/
def ModelDef.update (m : ModelDef) (query : TQuery) (values : List (String × Value))
    (options : UpdateOptions) (fault : Option KnexError) (s : DB) :
    OpResult (List (List (String × Value))) :=
  match (if options.isQueryValidationDisabled then [] else validateQuery m.fields query) with
  | v :: vs => (Except.error (Err.validation (v :: vs)), s, [])
  | [] =>
    match (if options.isValuesValidationDisabled then []
           else m.updateValuesValidationSchema.validate values) with
    | v :: vs => (Except.error (Err.validation (v :: vs)), s, [])
    | [] =>
      match prepareQueryParameters query with
      | Except.error msg => (Except.error (Err.programmer msg), s, [])
      | Except.ok qb =>
        match fault with
        | some e => (Except.error (Err.backendErr e), s, [Stmt.updateStmt])
        | none =>
          ((Except.ok ((s.filter (fun r => qb.matchesRow (rowFun r))).map
              (fun r => projectRow m.fieldNames (mergeRow values r))),
            s.map (fun r => if qb.matchesRow (rowFun r) then mergeRow values r else r),
            [Stmt.updateStmt]))

/-- Embedding of Model.updateOne: runs update inside the wrapper transaction with a fresh options object overriding only the transaction field, then applies the exactly-one check. -/
def ModelDef.updateOne (m : ModelDef) (query : TQuery) (values : List (String × Value))
    (options : UpdateOptions) (fault : Option KnexError) (s : DB) :
    OpResult (List (String × Value)) :=
  KnexWrapper.transaction (fun s1 =>
    match m.update query values
        (UpdateOptions.mk options.isQueryValidationDisabled options.isValuesValidationDisabled
          (some ()))
        fault s1 with
    | (Except.error e, s2, tr) => (Except.error e, s2, tr)
    | (Except.ok docs, s2, tr) =>
      match checkSingleDoc docs with
      | Except.error e => (Except.error e, s2, tr)
      | Except.ok d => (Except.ok d, s2, tr)) options.transaction s

/-- Embedding of Model.destroy: optional query validation, compilation, then the delete statement that removes every matching row and returns the deleted rows projected to the field names. -/
def ModelDef.destroy (m : ModelDef) (query : TQuery) (options : DestroyOptions)
    (fault : Option KnexError) (s : DB) : OpResult (List (List (String × Value))) :=
  match (if options.isValidationDisabled then [] else validateQuery m.fields query) with
  | v :: vs => (Except.error (Err.validation (v :: vs)), s, [])
  | [] =>
    match prepareQueryParameters query with
    | Except.error msg => (Except.error (Err.programmer msg), s, [])
    | Except.ok qb =>
      match fault with
      | some e => (Except.error (Err.backendErr e), s, [Stmt.deleteStmt])
      | none =>
        ((Except.ok ((s.filter (fun r => qb.matchesRow (rowFun r))).map
            (projectRow m.fieldNames)),
          s.filter (fun r => !(qb.matchesRow (rowFun r))),
          [Stmt.deleteStmt]))

/-- Embedding of Model.destroyOne: runs destroy inside the wrapper transaction with a fresh options object overriding only the transaction field, then applies the exactly-one check. -/
def ModelDef.destroyOne (m : ModelDef) (query : TQuery) (options : DestroyOptions)
    (fault : Option KnexError) (s : DB) : OpResult (List (String × Value)) :=
  KnexWrapper.transaction (fun s1 =>
    match m.destroy query (DestroyOptions.mk options.isValidationDisabled (some ())) fault s1 with
    | (Except.error e, s2, tr) => (Except.error e, s2, tr)
    | (Except.ok docs, s2, tr) =>
      match checkSingleDoc docs with
      | Except.error e => (Except.error e, s2, tr)
      | Except.ok d => (Except.ok d, s2, tr)) options.transaction s

/-- Embedding of the KeyModel constructor: supplies the derived create and update values schemas over the non-key fields to the base model. -/
def mkKeyModel (table : String) (fields : List (String × FieldSchema)) : ModelDef :=
  ModelDef.mk table fields (keyModelCreateValuesValidationSchema fields)
    (keyModelUpdateValuesValidationSchema fields)

/-- Embedding of KeyModel.fieldNames: the primary key is excluded only when the parameter asks for the exclusion; the default call keeps it. -/
def keyModelFieldNames (m : ModelDef) (isKeyExcluded : Bool) : List String :=
  if isKeyExcluded then m.fieldNames.filter (fun n => !(n == "key")) else m.fieldNames

/-- Embedding of the lodash pick the source uses: the object restricted to the named properties that exist, in name order. -/
def pickRow (r : List (String × Value)) (names : List String) : List (String × Value) :=
  names.filterMap (fun f =>
    match r.find? (fun p => p.1 == f) with
    | some p => some (f, p.2)
    | none => none)

/-- Embedding of KeyModel.updateByKey: updateOne with only the key in the query. -/
def keyModelUpdateByKey (m : ModelDef) (key : Value) (values : List (String × Value))
    (options : UpdateOptions) (fault : Option KnexError) (s : DB) :
    OpResult (List (String × Value)) :=
  m.updateOne (TQuery.single [("key", QueryValue.scalar (some key))]) values options fault s

/-- Embedding of KeyModel.save: updates by the document's own key with the document picked over fieldNames called without the exclusion flag, so the picked payload keeps the key field. -/
def keyModelSave (m : ModelDef) (document : List (String × Value)) (options : UpdateOptions)
    (fault : Option KnexError) (s : DB) : OpResult (List (String × Value)) :=
  keyModelUpdateByKey m (rowGet document "key") (pickRow document (keyModelFieldNames m false))
    options fault s

/-- Field validator of an integer-shaped field, used by the concrete fixtures. -/
def isIntValue : Value → Bool
| Value.vInt _ => true
| _ => false

/-- Field validator of a string-shaped field, used by the concrete fixtures. -/
def isStrValue : Value → Bool
| Value.vStr _ => true
| _ => false

/-- Concrete field schema set of the fixtures: an integer primary key and one string field. -/
def fields0 : List (String × FieldSchema) := [("key", isIntValue), ("name", isStrValue)]

/-- Concrete key model over the fixture fields. -/
def km0 : ModelDef := mkKeyModel "users" fields0

/-- C3: a query item setting both a field and its negated form passes the derived query-schema validation, because the source discards the schema the joi xor call returns (joi schemas are immutable), so the kept schema carries no exclusivity constraint; had the xor survived on the kept schema, the same item would be rejected. -/
theorem C3_xor_discarded_accepts_conflicting_item :
    validateQuery fields0
        (TQuery.single [("name", QueryValue.scalar (some (Value.vStr "a"))),
          ("!name", QueryValue.scalar (some (Value.vStr "b")))]) = []
  ∧ (mkQueryItemValidationSchema fields0).xors = []
  ∧ ((mkQueryItemValidationSchema fields0).xorPeers "name" "!name").validateItem
        [("name", QueryValue.scalar (some (Value.vStr "a"))),
          ("!name", QueryValue.scalar (some (Value.vStr "b")))]
      = [Violation.mk "name" ViolationKind.xorConflict] := by
  refine ⟨?_, rfl, ?_⟩ <;> decide

/-- C8: save of a well-formed entity always fails with a validation error, because KeyModel.fieldNames includes the primary key when called without the exclusion flag, so the picked update payload carries the key field, which the update-values schema (derived over the non-key fields only) rejects as an unknown key; the second conjunct exhibits the key inside the payload the source builds. -/
theorem C8_save_includes_key_in_payload :
    keyModelSave km0 [("key", Value.vInt 1), ("name", Value.vStr "b")]
        (UpdateOptions.mk false false none) none [[("key", Value.vInt 1), ("name", Value.vStr "a")]]
      = (Except.error (Err.validation [Violation.mk "key" ViolationKind.unknownKey]),
          [[("key", Value.vInt 1), ("name", Value.vStr "a")]],
          [Stmt.txBegin, Stmt.txRollback])
  ∧ pickRow [("key", Value.vInt 1), ("name", Value.vStr "b")] (keyModelFieldNames km0 false)
      = [("key", Value.vInt 1), ("name", Value.vStr "b")] := by
  refine ⟨?_, ?_⟩ <;> decide

/-- Concrete backend error whose code is the uniqueness violation but whose detail does not match the documented pattern. -/
def badDetailError : KnexError :=
  KnexError.mk "23505" "duplicate key value violates unique constraint" "users_pkey" "users"

/-- C9: a backend error with the uniqueness code but a detail text the pattern does not match makes the create operation surface the raw runtime failure of reading a property of the null match result, rather than an entity-exists error or the original backend error. -/
theorem C9_malformed_detail_raises_type_error :
    createHandleError badDetailError = Err.runtime "TypeError: cannot read property of null"
  ∧ (∀ x : EntityExistsError, createHandleError badDetailError ≠ Err.entityExists x)
  ∧ createHandleError badDetailError ≠ Err.backendErr badDetailError
  ∧ ModelDef.create km0 [[("name", Value.vStr "a")]] (CreateOptions.mk false none)
        (some badDetailError) []
      = (Except.error (Err.runtime "TypeError: cannot read property of null"), [],
          [Stmt.insertStmt]) := by
  refine ⟨?_, ?_, ?_, ?_⟩
  · decide
  · intro x
    have h : createHandleError badDetailError
        = Err.runtime "TypeError: cannot read property of null" := by decide
    rw [h]
    simp
  · decide
  · decide

/-- C7 counterexample: createOne with validation enabled and failing values still begins and rolls back a transaction, because the source opens the wrapper transaction before create runs the validation, so transaction work is executed even though the validation failure aborts before any data statement. -/
theorem C7_counterexample_createOne_transaction_work :
    ModelDef.createOne km0 [] (CreateOptions.mk false none) none []
      = (Except.error (Err.validation [Violation.mk "name" ViolationKind.missingRequired]), [],
          [Stmt.txBegin, Stmt.txRollback])
  ∧ Stmt.txBegin ∈ [Stmt.txBegin, Stmt.txRollback] := by
  refine ⟨?_, ?_⟩ <;> decide

/-- Filter values the compiler rejects with a programmer error: an empty array, or the undefined scalar sentinel. -/
def QueryValue.isBad : QueryValue → Bool
| QueryValue.arr vs => vs.isEmpty
| QueryValue.scalar ov => ov.isNone

/-- Whether a query item carries at least one rejected filter value. -/
def hasBadPair (item : QueryItem) : Bool := item.any (fun pair => pair.2.isBad)

theorem prepareQueryItemParamters_bad (item : QueryItem) :
    ∀ q : KnexQueryBuilder, hasBadPair item = true →
    ∃ msg, prepareQueryItemParamters q item = Except.error msg
      ∧ (msg = "An empty array has been passed."
          ∨ msg = "An undefined value has been passed.") := by
  induction item with
  | nil => intro q h; simp [hasBadPair] at h
  | cons pair rest ih =>
    intro q h
    obtain ⟨key, value⟩ := pair
    cases value with
    | arr vs =>
      cases vs with
      | nil =>
        refine ⟨"An empty array has been passed.", ?_, Or.inl rfl⟩
        simp [prepareQueryItemParamters]
      | cons x xs =>
        have hrest : hasBadPair rest = true := by
          simpa [hasBadPair, QueryValue.isBad] using h
        by_cases hneg : isNegKey key = true
        · obtain ⟨msg, hmsg, hor⟩ :=
            ih (q.andWhere (WherePred.whereNotIn (stripNeg key) (x :: xs))) hrest
          exact ⟨msg, by simp [prepareQueryItemParamters, hneg, hmsg], hor⟩
        · obtain ⟨msg, hmsg, hor⟩ :=
            ih (q.andWhere (WherePred.whereIn key (x :: xs))) hrest
          exact ⟨msg, by simp [prepareQueryItemParamters, hneg, hmsg], hor⟩
    | scalar ov =>
      cases ov with
      | none =>
        refine ⟨"An undefined value has been passed.", ?_, Or.inr rfl⟩
        simp [prepareQueryItemParamters]
      | some v =>
        have hrest : hasBadPair rest = true := by
          simpa [hasBadPair, QueryValue.isBad] using h
        by_cases hneg : isNegKey key = true
        · obtain ⟨msg, hmsg, hor⟩ :=
            ih (q.andWhere (WherePred.whereNe (stripNeg key) v)) hrest
          exact ⟨msg, by simp [prepareQueryItemParamters, hneg, hmsg], hor⟩
        · obtain ⟨msg, hmsg, hor⟩ :=
            ih (q.andWhere (WherePred.whereEq key v)) hrest
          exact ⟨msg, by simp [prepareQueryItemParamters, hneg, hmsg], hor⟩

/-- C5: a query item carrying an empty array or an undefined scalar as a filter value makes the compiler raise one of its two programmer errors, and a find over such an item (whenever the enabled schema validation does not object first, which it never does for these values) surfaces that programmer error with the table state unchanged and an empty statement trace, so no backend call is made; the error is a programmer error and therefore never a schema-validation failure. -/
theorem C5_programmer_error_bad_filter_value :
    (∀ (item : QueryItem) (q : KnexQueryBuilder), hasBadPair item = true →
      ∃ msg, prepareQueryItemParamters q item = Except.error msg
        ∧ (msg = "An empty array has been passed."
            ∨ msg = "An undefined value has been passed."))
  ∧ (∀ (m : ModelDef) (item : QueryItem) (options : FindOptions) (fault : Option KnexError)
        (s : DB),
      hasBadPair item = true →
      (options.isValidationDisabled = false → validateQuery m.fields (TQuery.single item) = []) →
      ∃ msg, m.find (TQuery.single item) options fault s
          = (Except.error (Err.programmer msg), s, [])
        ∧ (msg = "An empty array has been passed."
            ∨ msg = "An undefined value has been passed."))
  ∧ (∀ (msg : String) (vs : List Violation), Err.programmer msg ≠ Err.validation vs) := by
  refine ⟨fun item q h => prepareQueryItemParamters_bad item q h, ?_, ?_⟩
  · intro m item options fault s hbad hval
    obtain ⟨msg, hmsg, hor⟩ :=
      prepareQueryItemParamters_bad item KnexQueryBuilder.empty hbad
    refine ⟨msg, ?_, hor⟩
    cases hflag : options.isValidationDisabled with
    | true => simp [ModelDef.find, hflag, prepareQueryParameters, hmsg]
    | false => simp [ModelDef.find, hflag, hval hflag, prepareQueryParameters, hmsg]
  · intro msg vs
    simp

/-- Witness for C5 at a concrete model, item, options and state. -/
theorem C5_witness :
    ∃ msg, ModelDef.find km0 (TQuery.single [("name", QueryValue.arr [])])
        (FindOptions.mk false none none none) none []
        = (Except.error (Err.programmer msg), [], [])
      ∧ (msg = "An empty array has been passed."
          ∨ msg = "An undefined value has been passed.") :=
  C5_programmer_error_bad_filter_value.2.1 km0 [("name", QueryValue.arr [])]
    (FindOptions.mk false none none none) none [] (by decide) (fun _ => by decide)

/-- C7 (amended): a schema-validation failure aborts an operation with the table state unchanged and, for the bulk operations, with an empty statement trace, so no insert, select, update, delete or transaction statement is sent; for the exactly-one variants the wrapper transaction has already been begun when the validation runs inside it, so their trace is exactly the begin and rollback of that transaction and still contains no data statement. -/
theorem C7_validation_aborts_before_data_statements :
    (∀ (m : ModelDef) (values : List (List (String × Value))) (options : CreateOptions)
        (fault : Option KnexError) (s : DB) (vs : List Violation),
      options.isValidationDisabled = false →
      firstValidationError m.createValuesValidationSchema values = some vs →
      m.create values options fault s = (Except.error (Err.validation vs), s, []))
  ∧ (∀ (m : ModelDef) (query : TQuery) (options : FindOptions) (fault : Option KnexError)
        (s : DB) (v : Violation) (vs : List Violation),
      options.isValidationDisabled = false →
      validateQuery m.fields query = v :: vs →
      m.find query options fault s = (Except.error (Err.validation (v :: vs)), s, []))
  ∧ (∀ (m : ModelDef) (query : TQuery) (options : CountOptions) (fault : Option KnexError)
        (s : DB) (v : Violation) (vs : List Violation),
      options.isValidationDisabled = false →
      validateQuery m.fields query = v :: vs →
      m.count query options fault s = (Except.error (Err.validation (v :: vs)), s, []))
  ∧ (∀ (m : ModelDef) (query : TQuery) (values : List (String × Value)) (options : UpdateOptions)
        (fault : Option KnexError) (s : DB) (v : Violation) (vs : List Violation),
      options.isQueryValidationDisabled = false →
      validateQuery m.fields query = v :: vs →
      m.update query values options fault s = (Except.error (Err.validation (v :: vs)), s, []))
  ∧ (∀ (m : ModelDef) (query : TQuery) (values : List (String × Value)) (options : UpdateOptions)
        (fault : Option KnexError) (s : DB) (v : Violation) (vs : List Violation),
      options.isQueryValidationDisabled = true →
      options.isValuesValidationDisabled = false →
      m.updateValuesValidationSchema.validate values = v :: vs →
      m.update query values options fault s = (Except.error (Err.validation (v :: vs)), s, []))
  ∧ (∀ (m : ModelDef) (query : TQuery) (options : DestroyOptions) (fault : Option KnexError)
        (s : DB) (v : Violation) (vs : List Violation),
      options.isValidationDisabled = false →
      validateQuery m.fields query = v :: vs →
      m.destroy query options fault s = (Except.error (Err.validation (v :: vs)), s, []))
  ∧ (∀ (m : ModelDef) (values : List (String × Value)) (isDis : Bool)
        (fault : Option KnexError) (s : DB) (vs : List Violation),
      isDis = false →
      firstValidationError m.createValuesValidationSchema [values] = some vs →
      m.createOne values (CreateOptions.mk isDis none) fault s
        = (Except.error (Err.validation vs), s, [Stmt.txBegin, Stmt.txRollback]))
  ∧ (∀ (m : ModelDef) (query : TQuery) (fault : Option KnexError) (s : DB)
        (v : Violation) (vs : List Violation),
      validateQuery m.fields query = v :: vs →
      m.findOne query (FindOptions.mk false none none none) fault s
          = (Except.error (Err.validation (v :: vs)), s, [Stmt.txBegin, Stmt.txRollback])
        ∧ m.updateOne query [] (UpdateOptions.mk false true none) fault s
          = (Except.error (Err.validation (v :: vs)), s, [Stmt.txBegin, Stmt.txRollback])
        ∧ m.destroyOne query (DestroyOptions.mk false none) fault s
          = (Except.error (Err.validation (v :: vs)), s, [Stmt.txBegin, Stmt.txRollback]))
  ∧ (∀ st : Stmt, st ∈ ([Stmt.txBegin, Stmt.txRollback] : List Stmt) →
      st ≠ Stmt.insertStmt ∧ st ≠ Stmt.selectStmt ∧ st ≠ Stmt.updateStmt
        ∧ st ≠ Stmt.deleteStmt) := by
  refine ⟨?_, ?_, ?_, ?_, ?_, ?_, ?_, ?_, ?_⟩
  · intro m values options fault s vs hflag hfirst
    simp [ModelDef.create, hflag, hfirst]
  · intro m query options fault s v vs hflag hval
    simp [ModelDef.find, hflag, hval]
  · intro m query options fault s v vs hflag hval
    simp [ModelDef.count, hflag, hval]
  · intro m query values options fault s v vs hflag hval
    simp [ModelDef.update, hflag, hval]
  · intro m query values options fault s v vs hqflag hvflag hval
    simp [ModelDef.update, hqflag, hvflag, hval]
  · intro m query options fault s v vs hflag hval
    simp [ModelDef.destroy, hflag, hval]
  · intro m values isDis fault s vs hflag hfirst
    subst hflag
    simp [ModelDef.createOne, KnexWrapper.transaction, ModelDef.create, hfirst]
  · intro m query fault s v vs hval
    refine ⟨?_, ?_, ?_⟩
    · simp [ModelDef.findOne, KnexWrapper.transaction, ModelDef.find, hval]
    · simp [ModelDef.updateOne, KnexWrapper.transaction, ModelDef.update, hval]
    · simp [ModelDef.destroyOne, KnexWrapper.transaction, ModelDef.destroy, hval]
  · intro st hst
    fin_cases hst <;> simp

/-- Witness for C7 at a concrete model, operation and state. -/
theorem C7_witness :
    ModelDef.create km0 [[]] (CreateOptions.mk false none) none []
      = (Except.error (Err.validation [Violation.mk "name" ViolationKind.missingRequired]),
          [], []) :=
  C7_validation_aborts_before_data_statements.1 km0 [[]] (CreateOptions.mk false none) none []
    [Violation.mk "name" ViolationKind.missingRequired] rfl (by decide)

/-- C2: when the bulk operation underlying an exactly-one variant succeeds with a row count different from one, the variant raises the not-found error at zero rows and the multiple-found error above one row, and the wrapper transaction it opened rolls the table state back to the pre-call state, even though the data statement was executed inside the transaction (visible in the trace). -/
theorem C2_exactly_one_rollback :
    ∀ (m : ModelDef) (query : TQuery) (values : List (String × Value)) (s : DB)
      (qb : KnexQueryBuilder),
    validateQuery m.fields query = [] →
    m.updateValuesValidationSchema.validate values = [] →
    prepareQueryParameters query = Except.ok qb →
    (((s.filter (fun r => qb.matchesRow (rowFun r))).length = 0 →
        m.updateOne query values (UpdateOptions.mk false false none) none s
          = (Except.error Err.entityNotFound, s,
              [Stmt.txBegin, Stmt.updateStmt, Stmt.txRollback])
      ∧ m.destroyOne query (DestroyOptions.mk false none) none s
          = (Except.error Err.entityNotFound, s,
              [Stmt.txBegin, Stmt.deleteStmt, Stmt.txRollback])
      ∧ m.findOne query (FindOptions.mk false none none none) none s
          = (Except.error Err.entityNotFound, s,
              [Stmt.txBegin, Stmt.selectStmt, Stmt.txRollback]))
    ∧ (1 < (s.filter (fun r => qb.matchesRow (rowFun r))).length →
        m.updateOne query values (UpdateOptions.mk false false none) none s
          = (Except.error Err.multipleEntitiesFound, s,
              [Stmt.txBegin, Stmt.updateStmt, Stmt.txRollback])
      ∧ m.destroyOne query (DestroyOptions.mk false none) none s
          = (Except.error Err.multipleEntitiesFound, s,
              [Stmt.txBegin, Stmt.deleteStmt, Stmt.txRollback])
      ∧ m.findOne query (FindOptions.mk false none none none) none s
          = (Except.error Err.multipleEntitiesFound, s,
              [Stmt.txBegin, Stmt.selectStmt, Stmt.txRollback]))) := by
  intro m query values s qb hq hv hqb
  constructor
  · intro hn
    refine ⟨?_, ?_, ?_⟩
    · simp [ModelDef.updateOne, KnexWrapper.transaction, ModelDef.update, hq, hv, hqb,
        checkSingleDoc, List.length_map, hn]
    · simp [ModelDef.destroyOne, KnexWrapper.transaction, ModelDef.destroy, hq, hqb,
        checkSingleDoc, List.length_map, hn]
    · simp [ModelDef.findOne, KnexWrapper.transaction, ModelDef.find, hq, hqb,
        applyLimit, applyOffset, checkSingleDoc, List.length_map, hn]
  · intro hn
    have h0 : ¬ ((s.filter (fun r => qb.matchesRow (rowFun r))).length = 0) := by omega
    refine ⟨?_, ?_, ?_⟩
    · simp [ModelDef.updateOne, KnexWrapper.transaction, ModelDef.update, hq, hv, hqb,
        checkSingleDoc, List.length_map, hn, h0]
    · simp [ModelDef.destroyOne, KnexWrapper.transaction, ModelDef.destroy, hq, hqb,
        checkSingleDoc, List.length_map, hn, h0]
    · simp [ModelDef.findOne, KnexWrapper.transaction, ModelDef.find, hq, hqb,
        applyLimit, applyOffset, checkSingleDoc, List.length_map, hn, h0]

/-- Witness for C2 at a concrete model, query and empty table. -/
theorem C2_witness :
    ModelDef.updateOne km0 (TQuery.single [("key", QueryValue.scalar (some (Value.vInt 7)))])
        [("name", Value.vStr "b")] (UpdateOptions.mk false false none) none []
      = (Except.error Err.entityNotFound, [],
          [Stmt.txBegin, Stmt.updateStmt, Stmt.txRollback]) :=
  ((C2_exactly_one_rollback km0
      (TQuery.single [("key", QueryValue.scalar (some (Value.vInt 7)))])
      [("name", Value.vStr "b")] []
      ⟨some (WhereFilter.atom (WherePred.whereEq "key" (Value.vInt 7)))⟩
      (by decide) (by decide) (by decide)).1 (by decide)).1

theorem map_fst_filter_fst (l : List (String × FieldSchema)) (p : String → Bool) :
    (l.filter (fun x => p x.1)).map Prod.fst = (l.map Prod.fst).filter p := by
  induction l with
  | nil => rfl
  | cons x xs ih => by_cases h : p x.1 <;> simp [List.filter_cons, h, ih]

theorem validate_mem_missing (s : JoiObject) (v : List (String × Value))
    (k : String × FieldSchema) (hk : k ∈ s.keys) (hpres : s.presence = Presence.required)
    (habort : s.abortEarly = false) (hnot : ∀ p ∈ v, ¬ (p.1 = k.1)) :
    Violation.mk k.1 ViolationKind.missingRequired ∈ s.validate v := by
  have hany : v.any (fun p => p.1 == k.1) = false := by
    simp only [List.any_eq_false]
    intro p hp
    simpa using hnot p hp
  simp only [JoiObject.validate, hpres, habort, if_false, Bool.false_eq_true]
  rw [List.mem_append, List.mem_append, List.mem_append]
  refine Or.inl (Or.inl (Or.inr ?_))
  rw [List.mem_map]
  refine ⟨k, ?_, rfl⟩
  rw [List.mem_filter]
  exact ⟨hk, by simp [hany]⟩

theorem validate_optional_kinds (s : JoiObject) (hpres : s.presence = Presence.optional)
    (habort : s.abortEarly = false) (hx : s.xors = []) (v : List (String × Value))
    (viol : Violation) (h : viol ∈ s.validate v) :
    viol.kind = ViolationKind.unknownKey ∨ viol.kind = ViolationKind.badValue := by
  simp only [JoiObject.validate, hpres, habort, hx, if_false, Bool.false_eq_true,
    List.filterMap_nil, List.append_nil, List.nil_append] at h
  rw [List.mem_append] at h
  rcases h with h | h
  · rw [List.mem_map] at h
    obtain ⟨p, _, hpe⟩ := h
    left
    rw [← hpe]
  · rw [List.mem_filterMap] at h
    obtain ⟨p, _, hpe⟩ := h
    cases hfind : s.keys.find? (fun k => k.1 == p.1) with
    | none => rw [hfind] at hpe; simp at hpe
    | some k =>
      rw [hfind] at hpe
      by_cases hchk : k.2 p.2 = true
      · simp [hchk] at hpe
      · simp only [hchk, Bool.false_eq_true, if_false, Option.some_inj] at hpe
        right
        rw [← hpe]

/-- C6: the derived create-values schema is the joi object over exactly the non-key field names with presence required, and the derived update-values schema covers the same field set with presence optional; both disable abort-early (collecting violations across fields) and disable conversion; consequently a values object missing any required field fails create validation with a missing violation for that field (one per missing field), and update validation never reports a presence violation, so omitting any subset of fields alone cannot fail it. -/
theorem C6_values_schema_derivation :
    ∀ fields : List (String × FieldSchema),
    ((keyModelCreateValuesValidationSchema fields).keys.map Prod.fst
        = (fields.map Prod.fst).filter (fun n => !(n == "key"))
      ∧ (keyModelUpdateValuesValidationSchema fields).keys.map Prod.fst
        = (fields.map Prod.fst).filter (fun n => !(n == "key"))
      ∧ (keyModelCreateValuesValidationSchema fields).presence = Presence.required
      ∧ (keyModelUpdateValuesValidationSchema fields).presence = Presence.optional
      ∧ (keyModelCreateValuesValidationSchema fields).abortEarly = false
      ∧ (keyModelUpdateValuesValidationSchema fields).abortEarly = false
      ∧ (keyModelCreateValuesValidationSchema fields).convert = false
      ∧ (keyModelUpdateValuesValidationSchema fields).convert = false)
  ∧ (∀ (values : List (String × Value)) (k : String × FieldSchema),
      k ∈ (keyModelCreateValuesValidationSchema fields).keys →
      (∀ p ∈ values, ¬ (p.1 = k.1)) →
      Violation.mk k.1 ViolationKind.missingRequired
          ∈ (keyModelCreateValuesValidationSchema fields).validate values
        ∧ (keyModelCreateValuesValidationSchema fields).validate values ≠ [])
  ∧ (∀ (values : List (String × Value)) (viol : Violation),
      viol ∈ (keyModelUpdateValuesValidationSchema fields).validate values →
      viol.kind ≠ ViolationKind.missingRequired) := by
  intro fields
  refine ⟨⟨?_, ?_, rfl, rfl, rfl, rfl, rfl, rfl⟩, ?_, ?_⟩
  · exact map_fst_filter_fst fields (fun n => !(n == "key"))
  · exact map_fst_filter_fst fields (fun n => !(n == "key"))
  · intro values k hk hnot
    have hmem := validate_mem_missing (keyModelCreateValuesValidationSchema fields) values k hk
      rfl rfl hnot
    exact ⟨hmem, List.ne_nil_of_mem hmem⟩
  · intro values viol h
    rcases validate_optional_kinds (keyModelUpdateValuesValidationSchema fields) rfl rfl rfl
      values viol h with hkind | hkind <;> simp [hkind]

/-- Witness for C6 at the fixture fields, an empty values object and the name field. -/
theorem C6_witness :
    Violation.mk "name" ViolationKind.missingRequired
        ∈ (keyModelCreateValuesValidationSchema fields0).validate []
      ∧ (keyModelCreateValuesValidationSchema fields0).validate [] ≠ [] :=
  (C6_values_schema_derivation fields0).2.1 [] ("name", isStrValue)
    (by rw [show (keyModelCreateValuesValidationSchema fields0).keys
          = [("name", isStrValue)] from rfl]
        exact List.mem_singleton.mpr rfl)
    (fun p hp => absurd hp (List.not_mem_nil p))

/-- Detail text of the documented backend format, rendered from a field list and a value list. -/
def renderDetail (F V : List (List Char)) : List Char :=
  detailKeyParen ++ joinCommaSpace F ++ (")=(").data ++ joinCommaSpace V
    ++ detailSuffix ++ [Char.ofNat 46]

theorem splitAtLastSep_none (V : List Char) (h : ')' ∉ V) : splitAtLastSep V = none := by
  induction V with
  | nil => rfl
  | cons c cs ih =>
    have hcs : ')' ∉ cs := fun hx => h (List.mem_cons_of_mem c hx)
    have hc : c ≠ ')' := fun hx => h (by rw [hx]; exact List.mem_cons_self _ _)
    simp only [splitAtLastSep, ih hcs]
    split
    · exact absurd rfl hc
    · rfl

theorem splitAtLastSep_sep (V : List Char) (h : ')' ∉ V) :
    splitAtLastSep (')' :: '=' :: '(' :: V) = some ([], V) := by
  have hnone : splitAtLastSep V = none := splitAtLastSep_none V h
  simp [splitAtLastSep, hnone]

theorem splitAtLastSep_append (F rest a b : List Char)
    (h : splitAtLastSep rest = some (a, b)) :
    splitAtLastSep (F ++ rest) = some (F ++ a, b) := by
  induction F with
  | nil => simpa using h
  | cons c F2 ih =>
    simp only [List.cons_append, splitAtLastSep, List.append_eq, ih]

theorem splitCommaSpace_ne_nil (l : List Char) : splitCommaSpace l ≠ [] := by
  match l with
  | [] => simp [splitCommaSpace]
  | [c] => simp [splitCommaSpace]
  | c :: d :: rest =>
    simp only [splitCommaSpace]
    split
    · simp
    · split <;> simp

theorem splitCommaSpace_commaFree (f : List Char) (h : ',' ∉ f) : splitCommaSpace f = [f] := by
  induction f with
  | nil => rfl
  | cons c cs ih =>
    have hc : c ≠ ',' := fun hx => h (by rw [hx]; exact List.mem_cons_self _ _)
    have hcs : ',' ∉ cs := fun hx => h (List.mem_cons_of_mem c hx)
    cases cs with
    | nil => rfl
    | cons d rest =>
      simp only [splitCommaSpace]
      rw [if_neg (fun hand => hc hand.1)]
      rw [ih hcs]

theorem splitCommaSpace_prepend (f t : List Char) (h : ',' ∉ f) :
    splitCommaSpace (f ++ ',' :: ' ' :: t) = f :: splitCommaSpace t := by
  induction f with
  | nil =>
    cases t with
    | nil => simp [splitCommaSpace]
    | cons e es => simp [splitCommaSpace]
  | cons c cs ih =>
    have hc : c ≠ ',' := fun hx => h (by rw [hx]; exact List.mem_cons_self _ _)
    have hcs : ',' ∉ cs := fun hx => h (List.mem_cons_of_mem c hx)
    have ihx := ih hcs
    cases cs with
    | nil =>
      simp only [List.cons_append, List.nil_append, splitCommaSpace]
      rw [if_neg (fun hand => hc hand.1)]
      simp [splitCommaSpace]
    | cons d rest =>
      simp only [List.cons_append] at ihx ⊢
      simp only [splitCommaSpace]
      rw [if_neg (fun hand => hc hand.1)]
      rw [ihx]

theorem splitCommaSpace_join (F : List (List Char)) (hne : F ≠ [])
    (h : ∀ f ∈ F, ',' ∉ f) : splitCommaSpace (joinCommaSpace F) = F := by
  induction F with
  | nil => exact absurd rfl hne
  | cons f fs ih =>
    cases fs with
    | nil =>
      simp only [joinCommaSpace]
      exact splitCommaSpace_commaFree f (h f (List.mem_cons_self _ _))
    | cons g gs =>
      have hf : ',' ∉ f := h f (List.mem_cons_self _ _)
      have hrest : ∀ x ∈ (g :: gs), ',' ∉ x := fun x hx => h x (List.mem_cons_of_mem f hx)
      simp only [joinCommaSpace]
      rw [splitCommaSpace_prepend _ _ hf]
      rw [ih (by simp) hrest]

theorem mem_joinCommaSpace (c : Char) (L : List (List Char)) (h : c ∈ joinCommaSpace L) :
    (∃ l ∈ L, c ∈ l) ∨ c = ',' ∨ c = ' ' := by
  induction L with
  | nil => simp [joinCommaSpace] at h
  | cons f rest ih =>
    cases rest with
    | nil =>
      simp only [joinCommaSpace] at h
      exact Or.inl ⟨f, List.mem_cons_self _ _, h⟩
    | cons g gs =>
      simp only [joinCommaSpace] at h
      rcases List.mem_append.mp h with h1 | h1
      · exact Or.inl ⟨f, List.mem_cons_self _ _, h1⟩
      · rcases List.mem_cons.mp h1 with h2 | h2
        · exact Or.inr (Or.inl h2)
        · rcases List.mem_cons.mp h2 with h3 | h3
          · exact Or.inr (Or.inr h3)
          · rcases ih h3 with ⟨l, hl, hcl⟩ | h4
            · exact Or.inl ⟨l, List.mem_cons_of_mem f hl, hcl⟩
            · exact Or.inr h4

theorem matchDetail_render (F V : List (List Char))
    (hF : ∀ f ∈ F, ',' ∉ f ∧ lfChar ∉ f)
    (hV : ∀ v ∈ V, ',' ∉ v ∧ ')' ∉ v ∧ lfChar ∉ v) :
    matchDetail (renderDetail F V) = some (joinCommaSpace F, joinCommaSpace V) := by
  have hsepeq : (")=(").data = [')', '=', '('] := by decide
  have hnpV : ')' ∉ joinCommaSpace V := by
    intro hx
    rcases mem_joinCommaSpace _ _ hx with ⟨l, hl, hcl⟩ | h4 | h4
    · exact (hV l hl).2.1 hcl
    · exact absurd h4 (by decide)
    · exact absurd h4 (by decide)
  have hlfF : lfChar ∉ joinCommaSpace F := by
    intro hx
    rcases mem_joinCommaSpace _ _ hx with ⟨l, hl, hcl⟩ | h4 | h4
    · exact (hF l hl).2 hcl
    · exact absurd h4 (by decide)
    · exact absurd h4 (by decide)
  have hlfV : lfChar ∉ joinCommaSpace V := by
    intro hx
    rcases mem_joinCommaSpace _ _ hx with ⟨l, hl, hcl⟩ | h4 | h4
    · exact (hV l hl).2.2 hcl
    · exact absurd h4 (by decide)
    · exact absurd h4 (by decide)
  have hsplit : splitAtLastSep
      (joinCommaSpace F ++ (")=(").data ++ joinCommaSpace V)
      = some (joinCommaSpace F, joinCommaSpace V) := by
    rw [hsepeq, List.append_assoc]
    have := splitAtLastSep_append (joinCommaSpace F)
      (')' :: '=' :: '(' :: joinCommaSpace V) [] (joinCommaSpace V)
      (splitAtLastSep_sep (joinCommaSpace V) hnpV)
    simpa using this
  set A := joinCommaSpace F ++ (")=(").data ++ joinCommaSpace V with hA
  set S := detailSuffix ++ [Char.ofNat 46] with hS
  have hrender : renderDetail F V = detailKeyParen ++ (A ++ S) := by
    simp only [renderDetail, hA, hS, List.append_assoc]
  have hSlen : S.length = detailSuffix.length + 1 := by
    simp [hS]
  have hlen : (A ++ S).length - (detailSuffix.length + 1) = A.length := by
    simp only [List.length_append, hSlen]
    omega
  have hdrop : (detailKeyParen ++ (A ++ S)).drop detailKeyParen.length = A ++ S :=
    List.drop_left detailKeyParen (A ++ S)
  have htake : (A ++ S).take ((A ++ S).length - (detailSuffix.length + 1)) = A := by
    rw [hlen]
    exact List.take_left A S
  have htail : (A ++ S).drop ((A ++ S).length - (detailSuffix.length + 1)) = S := by
    rw [hlen]
    exact List.drop_left A S
  have hpre : detailKeyParen.isPrefixOf (detailKeyParen ++ (A ++ S)) = true := by
    rw [ List.isPrefixOf_iff_prefix]
    exact List.prefix_append detailKeyParen (A ++ S)
  have hcond1 : decide (detailSuffix.length + 1 ≤ (A ++ S).length) = true := by
    rw [decide_eq_true_eq]
    simp only [List.length_append, hSlen]
    omega
  have hcond2 : (S.take detailSuffix.length == detailSuffix) = true := by
    rw [hS]
    rw [List.take_left]
    exact beq_self_eq_true detailSuffix
  have hcond3 : detailLastCharOk (S.drop detailSuffix.length) = true := by
    rw [hS, List.drop_left]
    decide
  have hcond4 : A.all (fun c => !(c == lfChar)) = true := by
    rw [List.all_eq_true]
    intro c hc
    rcases List.mem_append.mp hc with hc1 | hc1
    · rcases List.mem_append.mp hc1 with hc2 | hc2
      · simp only [Bool.not_eq_eq_eq_not, Bool.not_true, beq_eq_false_iff_ne]
        intro hx
        exact hlfF (hx ▸ hc2)
      · rw [hsepeq] at hc2
        rcases List.mem_cons.mp hc2 with h3 | h3
        · rw [h3]; decide
        · rcases List.mem_cons.mp h3 with h4 | h4
          · rw [h4]; decide
          · rcases List.mem_cons.mp h4 with h5 | h5
            · rw [h5]; decide
            · simp at h5
    · simp only [Bool.not_eq_eq_eq_not, Bool.not_true, beq_eq_false_iff_ne]
      intro hx
      exact hlfV (hx ▸ hc1)
  rw [hrender]
  simp only [matchDetail, hpre, if_pos, hdrop, htake, htail, hcond1, hcond2, hcond3, hcond4,
    Bool.and_self, Bool.true_and, Bool.and_true, if_true]
  exact hsplit

/-- C4: a backend error raised during create is translated exactly when its code is the uniqueness-violation code: any other code is rethrown unchanged, and with that code and a detail of the documented form the translation yields an entity-exists error whose field list and value list are the comma-space splits of the two detail groups, carrying one detail message per offending field that references the table name and the joined conflicting values. -/
theorem C4_uniqueness_error_translation :
    ∀ e : KnexError,
    (e.code ≠ "23505" → createHandleError e = Err.backendErr e)
  ∧ (∀ F V : List (List Char),
      e.code = "23505" →
      F ≠ [] → (∀ f ∈ F, ',' ∉ f ∧ lfChar ∉ f) →
      V ≠ [] → (∀ v ∈ V, ',' ∉ v ∧ ')' ∉ v ∧ lfChar ∉ v) →
      e.detail.data = renderDetail F V →
      ∃ x : EntityExistsError,
        createHandleError e = Err.entityExists x
        ∧ x.constraint = e.constraint
        ∧ x.detail.map Prod.fst = F
        ∧ x.detail.length = F.length
        ∧ x.values = joinCommaSpace (V.map quoteValue)
        ∧ x.fields = joinCommaSpace (F.map (quoteField e.table))
        ∧ (∀ d ∈ x.detail,
            List.IsInfix e.table.data d.2.message ∧ List.IsInfix x.values d.2.message)) := by
  intro e
  constructor
  · intro hcode
    simp [createHandleError, hcode]
  · intro F V hcode hFne hF hVne hV hdet
    have hmatch : matchDetail e.detail.data
        = some (joinCommaSpace F, joinCommaSpace V) := by
      rw [hdet]
      exact matchDetail_render F V hF hV
    have hsplitF : splitCommaSpace (joinCommaSpace F) = F :=
      splitCommaSpace_join F hFne (fun f hf => (hF f hf).1)
    have hsplitV : splitCommaSpace (joinCommaSpace V) = V :=
      splitCommaSpace_join V hVne (fun v hv => (hV v hv).1)
    have hhandle : createHandleError e = Err.entityExists (EntityExistsError.mk e.constraint
        (joinCommaSpace (F.map (quoteField e.table)))
        (joinCommaSpace (V.map quoteValue))
        (F.map (fun f => (f, EntityExistsDetailEntry.mk (joinCommaSpace (V.map quoteValue))
          "any.db_unique_constraint"
          (entityExistsMessage e.table (joinCommaSpace (V.map quoteValue))
            (joinCommaSpace (F.map (quoteField e.table)))))))) := by
      simp only [createHandleError, hcode, EntityExistsError.build, hmatch, hsplitF, hsplitV,
        if_true, reduceIte]
    refine ⟨_, hhandle, rfl, ?_, ?_, rfl, rfl, ?_⟩
    · simp [List.map_map, Function.comp_def]
    · simp [List.length_map]
    · intro d hd
      simp only at hd
      rcases List.mem_map.mp hd with ⟨f, hfmem, hfe⟩
      rw [← hfe]
      constructor
      · exact ⟨("A ").data ++ [dquote],
          [dquote] ++ (" entity already exists with the same value ").data
            ++ joinCommaSpace (V.map quoteValue)
            ++ (" in the ").data
            ++ joinCommaSpace (F.map (quoteField e.table))
            ++ (" field").data
            ++ (if 1 < (joinCommaSpace (F.map (quoteField e.table))).length
                then [Char.ofNat 115] else []),
          by simp [entityExistsMessage, List.append_assoc]⟩
      · exact ⟨("A ").data ++ (dquote :: e.table.data) ++ [dquote]
            ++ (" entity already exists with the same value ").data,
          (" in the ").data
            ++ joinCommaSpace (F.map (quoteField e.table))
            ++ (" field").data
            ++ (if 1 < (joinCommaSpace (F.map (quoteField e.table))).length
                then [Char.ofNat 115] else []),
          by simp [entityExistsMessage, List.append_assoc]⟩

/-- Concrete uniqueness-violation backend error with a well-formed detail text. -/
def uniqueDetailError : KnexError :=
  KnexError.mk "23505" "Key (a, b)=(1, 2) already exists." "users_ab_key" "users"

/-- Concrete backend error with a non-uniqueness code. -/
def otherCodeError : KnexError :=
  KnexError.mk "22P02" "invalid input syntax for integer" "" "users"

/-- Witness for C4 at a concrete translated error and a concrete passed-through error. -/
theorem C4_witness :
    (∃ x : EntityExistsError,
      createHandleError uniqueDetailError = Err.entityExists x
      ∧ x.constraint = uniqueDetailError.constraint
      ∧ x.detail.map Prod.fst = [("a").data, ("b").data]
      ∧ x.detail.length = [("a").data, ("b").data].length
      ∧ x.values = joinCommaSpace ([("1").data, ("2").data].map quoteValue)
      ∧ x.fields = joinCommaSpace
          ([("a").data, ("b").data].map (quoteField uniqueDetailError.table))
      ∧ (∀ d ∈ x.detail,
          List.IsInfix uniqueDetailError.table.data d.2.message
            ∧ List.IsInfix x.values d.2.message))
  ∧ createHandleError otherCodeError = Err.backendErr otherCodeError :=
  ⟨(C4_uniqueness_error_translation uniqueDetailError).2
      [("a").data, ("b").data] [("1").data, ("2").data] rfl (by decide) (by decide)
      (by decide) (by decide) (by decide),
    (C4_uniqueness_error_translation otherCodeError).1 (by decide)⟩

end KnexModel
